import Mathlib

/-!
Verification development for the DFP fixpoint-equation engine (src/DFP.h).

The C++ source is a header template over a numeric type `T`; we instantiate the
embedding at `T := Rat`, the exact numeric domain, so that arithmetic,
comparison and the convergence test are decidable.  Cells (`Fixpoint<T>`)
live behind pointers in C++; we model the heap as an association list from
cell identifiers to cells, and a pointer as a `CellId`.  Fallible C++
behaviour is made explicit in an error type: each `throw` site of the source
gets its own constructor, while out-of-bounds `std::vector` indexing and
dereferencing a `std::map` end iterator (both undefined behaviour in the
source) are mapped to `undefinedBehavior`.  The evaluator of the source is a
set of mutually recursive member functions with an unbounded iteration loop;
the embedding threads an explicit fuel, with `outOfFuel` marking exhaustion
(an artifact of the embedding, never of the source semantics).
-/

namespace DFP

/-- Cell identity: stands for a `Fixpoint<T>*` pointer value. -/
abbrev CellId := Nat

/-- Mirrors `enum class FixpointOperation`. -/
inductive FixpointOperation where
  | division
  | multiplication
  | addition
  | subtraction
  | next_layer_equivalence
  | parametrized_reference
  | parametrized_equivalence
  | ceil
  | floor
deriving DecidableEq

/-- Mirrors `enum class FixpointParameterGeneralType`.  The source names the
second constructor `variable`, which is a reserved word in Lean, hence the
trailing underscore. -/
inductive FixpointParameterGeneralType where
  | constant
  | variable_
deriving DecidableEq

/-- Mirrors `struct FixpointParameter`: `value` is the
`std::variant<std::monostate, int>` field (`none` = `monostate`), plus the
general type tag, the child list and the optional operation.  The
`FixpointParameterType` field is always `integer` and carries no information,
so it is omitted. -/
inductive FixpointParameter where
  | mk (value : Option Int) (generalType : FixpointParameterGeneralType)
       (children : List FixpointParameter) (operation : Option FixpointOperation)

/-- Projection for the `value` field. -/
def FixpointParameter.value : FixpointParameter → Option Int
  | .mk v _ _ _ => v

/-- Projection for the `generalType` field. -/
def FixpointParameter.generalType : FixpointParameter → FixpointParameterGeneralType
  | .mk _ g _ _ => g

/-- Projection for the `children` field. -/
def FixpointParameter.children : FixpointParameter → List FixpointParameter
  | .mk _ _ ch _ => ch

/-- Projection for the `operation` field. -/
def FixpointParameter.operation : FixpointParameter → Option FixpointOperation
  | .mk _ _ _ op => op

/-- The constructor `FixpointParameter(int value_)`: a constant slot. -/
def FixpointParameter.ofInt (v : Int) : FixpointParameter :=
  .mk (some v) .constant [] none

/-- The constructor `FixpointParameter()`: a wildcard (variable) slot. -/
def FixpointParameter.wildcard : FixpointParameter :=
  .mk none .variable_ [] none

/-- Errors of the embedded evaluator.  `invalidAccess`,
`unsupportedOperation` and `unsupportedComputation` correspond to the
explicit `throw std::logic_error` sites of the source;
`badVariantAccess` to `std::get` on the wrong variant alternative
(`std::bad_variant_access`); `undefinedBehavior` to out-of-bounds
`operator[]` on a vector or dereferencing the end iterator of a map, both
undefined behaviour in C++; `outOfFuel` is the embedding artifact for the
unbounded recursion of the source. -/
inductive EvalErr where
  | invalidAccess
  | unsupportedOperation
  | unsupportedComputation
  | badVariantAccess
  | undefinedBehavior
  | outOfFuel
deriving DecidableEq

/-- Mirrors `FixpointCache<T>`: `cacheFixpoints` is the
`std::map<Fixpoint<T>*, T>` and `parameter` the `std::optional<T>` slot. -/
structure FixpointCache where
  cacheFixpoints : List (CellId × Rat)
  parameter : Option Rat
deriving DecidableEq

/-- Key lookup in the association list, mirroring `std::map::find`
(`none` plays the role of the end iterator). -/
def cacheFind : List (CellId × Rat) → CellId → Option Rat
  | [], _ => none
  | (i, v) :: rest, cid => if i = cid then some v else cacheFind rest cid

/-- `FixpointCache::contains`. -/
def FixpointCache.contains (c : FixpointCache) (cid : CellId) : Bool :=
  (cacheFind c.cacheFixpoints cid).isSome

/-- `FixpointCache::get`: `cacheFixpoints.find(rhs)->second` with no
containment check, so a miss dereferences the end iterator - undefined
behaviour in the source, `undefinedBehavior` here. -/
def FixpointCache.get (c : FixpointCache) (cid : CellId) : Except EvalErr Rat :=
  match cacheFind c.cacheFixpoints cid with
  | some v => .ok v
  | none => .error .undefinedBehavior

/-- Update-in-place of the entry with the given key (keys are unique in a
`std::map`), used by the contained branch of `remember`. -/
def cacheReplace : List (CellId × Rat) → CellId → Rat → List (CellId × Rat)
  | [], _, _ => []
  | (i, w) :: rest, cid, v =>
    if i = cid then (i, v) :: rest else (i, w) :: cacheReplace rest cid v

/-- `FixpointCache::remember`: update the entry if present, insert otherwise. -/
def FixpointCache.remember (c : FixpointCache) (cid : CellId) (v : Rat) :
    FixpointCache :=
  if c.contains cid then
    { c with cacheFixpoints := cacheReplace c.cacheFixpoints cid v }
  else
    { c with cacheFixpoints := c.cacheFixpoints ++ [(cid, v)] }

/-- `FixpointCache::register_parameter`. -/
def FixpointCache.register_parameter (c : FixpointCache) (v : Rat) :
    FixpointCache :=
  { c with parameter := some v }

/-- `FixpointCache::get_parameter`: returns the bound parameter, and throws
`std::logic_error("Invalid access.")` when none is bound. -/
def FixpointCache.get_parameter (c : FixpointCache) : Except EvalErr Rat :=
  match c.parameter with
  | some v => .ok v
  | none => .error .invalidAccess

/-- `FixpointParameter::evaluate(FixpointCache<T>&)`.  The source recurses
through `children[0]` / `children[1]`; indexing out of bounds is undefined
behaviour.  The final unreachable throws of the source (the variant has
exactly the two alternatives our `Option Int` covers) are not represented.
The fuel only bounds the recursion depth of the embedding. -/
def paramEvaluate : Nat → FixpointParameter → FixpointCache → Except EvalErr Rat
  | 0, _, _ => .error .outOfFuel
  | fuel+1, p, cache =>
    match p.operation with
    | some op =>
      match op with
      | .addition => do
          let c0 ← childAt p 0
          let a ← paramEvaluate fuel c0 cache
          let c1 ← childAt p 1
          let b ← paramEvaluate fuel c1 cache
          .ok (a + b)
      | .subtraction => do
          let c0 ← childAt p 0
          let a ← paramEvaluate fuel c0 cache
          let c1 ← childAt p 1
          let b ← paramEvaluate fuel c1 cache
          .ok (a - b)
      | .multiplication => do
          let c0 ← childAt p 0
          let a ← paramEvaluate fuel c0 cache
          let c1 ← childAt p 1
          let b ← paramEvaluate fuel c1 cache
          .ok (a * b)
      | .division => do
          let c0 ← childAt p 0
          let a ← paramEvaluate fuel c0 cache
          let c1 ← childAt p 1
          let b ← paramEvaluate fuel c1 cache
          .ok (a / b)
      | .ceil => do
          let c0 ← childAt p 0
          let a ← paramEvaluate fuel c0 cache
          .ok ((a.ceil : Int) : Rat)
      | .floor => do
          let c0 ← childAt p 0
          let a ← paramEvaluate fuel c0 cache
          .ok ((a.floor : Int) : Rat)
      | .next_layer_equivalence => .error .unsupportedOperation
      | .parametrized_reference => .error .unsupportedOperation
      | .parametrized_equivalence => .error .unsupportedOperation
    | none =>
      match p.value with
      | none => cache.get_parameter
      | some k => .ok (k : Rat)
where
  /-- `children[index]` on the parameter, `undefinedBehavior` out of bounds. -/
  childAt (p : FixpointParameter) (index : Nat) :
      Except EvalErr FixpointParameter :=
    match p.children.get? index with
    | some c => .ok c
    | none => .error .undefinedBehavior

/-- Mirrors `FixpointReference<T>`: `std::variant<Fixpoint<T>*, T>`. -/
inductive FixpointReference where
  | cell (cid : CellId)
  | val (t : Rat)
deriving DecidableEq

mutual
/-- Mirrors `struct FixpointComputation<T>`: a child list over the variant
`std::variant<FixpointParameter, FixpointReference<T>, FixpointComputation<T>>`
and an operation tag. -/
inductive FixpointComputation where
  | mk (children : List FixpointChild) (operation : FixpointOperation)

/-- One child of a computation node (the three variant alternatives, in the
order of the source variant). -/
inductive FixpointChild where
  | param (p : FixpointParameter)
  | ref (r : FixpointReference)
  | comp (c : FixpointComputation)
end

/-- Projection for the `children` field. -/
def FixpointComputation.children : FixpointComputation → List FixpointChild
  | .mk ch _ => ch

/-- Projection for the `operation` field. -/
def FixpointComputation.operation : FixpointComputation → FixpointOperation
  | .mk _ op => op

/-- Mirrors `struct Fixpoint<T>`: the current value and the registered
equation list (insertion order). -/
structure Fixpoint where
  value : Rat
  fixpointComputations : List FixpointComputation

/-- The heap of live cells: association list from pointer identity to cell. -/
abbrev CellStore := List (CellId × Fixpoint)

/-- Pointer dereference, mirroring reading through a `Fixpoint<T>*`; an
absent identifier models a dangling pointer. -/
def storeFind : CellStore → CellId → Option Fixpoint
  | [], _ => none
  | (i, fp) :: rest, cid => if i = cid then some fp else storeFind rest cid

/-- `fixpoint->value = newLayer`: assignment through a cell pointer (the
pointed-to cell is unique in the heap). -/
def storeSetValue : CellStore → CellId → Rat → CellStore
  | [], _, _ => []
  | (i, fp) :: rest, cid, v =>
    if i = cid then (i, { fp with value := v }) :: rest
    else (i, fp) :: storeSetValue rest cid v

/-- `FixpointComputation::match(T t)`: reads `children[0]` (must hold a
computation), then its `children[1]` (must hold a parameter) and compares the
pattern against the argument.  A constant pattern matches iff it holds an
`int` equal to `t`; any other pattern (the variable case) matches.  The name
`match` is a reserved word in Lean. -/
def FixpointComputation.matchArg (c : FixpointComputation) (t : Rat) :
    Except EvalErr Bool :=
  match c.children.get? 0 with
  | none => .error .undefinedBehavior
  | some core =>
    match core with
    | .comp coreComputation =>
      match coreComputation.children.get? 1 with
      | none => .error .undefinedBehavior
      | some ch =>
        match ch with
        | .param parameter =>
          if parameter.generalType = .constant then
            match parameter.value with
            | some k => .ok (decide ((k : Rat) = t))
            | none => .ok false
          else
            .ok true
        | _ => .error .badVariantAccess
    | _ => .error .badVariantAccess

/-- The collection loop of `Fixpoint::pattern_match`: run `match` on each
registered computation in insertion order, keeping the matching ones. -/
def patternMatchAux (t : Rat) :
    List FixpointComputation → Except EvalErr (List FixpointComputation)
  | [] => .ok []
  | c :: rest => do
      let b ← c.matchArg t
      let others ← patternMatchAux t rest
      if b then .ok (c :: others) else .ok others

/-- `Fixpoint::pattern_match(T t)`: collect all matching computations, then
return `validMatches[0]` - indexing an empty vector when nothing matched,
which is undefined behaviour in the source. -/
def Fixpoint.pattern_match (f : Fixpoint) (t : Rat) :
    Except EvalErr FixpointComputation := do
  let validMatches ← patternMatchAux t f.fixpointComputations
  match validMatches.get? 0 with
  | some c => .ok c
  | none => .error .undefinedBehavior

/-- `FixpointReference::ToT(FixpointCache<T>&)`: a plain value is returned
as is; a cell pointer is looked up in the cache, and on a miss the live cell
value is remembered first and then returned through the cache. -/
def FixpointReference.ToT : FixpointReference → CellStore → FixpointCache →
    Except EvalErr (Rat × FixpointCache)
  | .val t, _, cache => .ok (t, cache)
  | .cell cid, store, cache =>
    if cache.contains cid then do
      let v ← cache.get cid
      .ok (v, cache)
    else
      match storeFind store cid with
      | none => .error .undefinedBehavior
      | some fp => do
        let cache2 := cache.remember cid fp.value
        let v ← cache2.get cid
        .ok (v, cache2)

/-- Evaluation state: the heap of cells plus the active cache.  The heap is
global mutable memory in the source; the cache is passed by reference. -/
structure EvalState where
  store : CellStore
  cache : FixpointCache

/-- The convergence threshold: `T delta = 0.01;` in the source. -/
def delta : Rat := 1 / 100

mutual
/-- `FixpointComputation::Computation(FixpointCache<T>&)`: the recursive
evaluator.  The switch of the source covers every `FixpointOperation`
constructor, so its trailing `throw std::logic_error("Invalid operation.")`
is unreachable and not represented.  Binary operands are evaluated left to
right (the source leaves the C++ operand order unspecified). -/
def Computation : Nat → FixpointComputation → EvalState →
    Except EvalErr (Rat × EvalState)
  | 0, _, _ => .error .outOfFuel
  | fuel+1, c, st =>
    match c.operation with
    | .division => do
        let (a, st1) ← LocalParameterComputation fuel c 0 st
        let (b, st2) ← LocalParameterComputation fuel c 1 st1
        .ok (a / b, st2)
    | .multiplication => do
        let (a, st1) ← LocalParameterComputation fuel c 0 st
        let (b, st2) ← LocalParameterComputation fuel c 1 st1
        .ok (a * b, st2)
    | .addition => do
        let (a, st1) ← LocalParameterComputation fuel c 0 st
        let (b, st2) ← LocalParameterComputation fuel c 1 st1
        .ok (a + b, st2)
    | .subtraction => do
        let (a, st1) ← LocalParameterComputation fuel c 0 st
        let (b, st2) ← LocalParameterComputation fuel c 1 st1
        .ok (a - b, st2)
    | .ceil => do
        let (a, st1) ← LocalParameterComputation fuel c 0 st
        .ok (((a.ceil : Int) : Rat), st1)
    | .floor => do
        let (a, st1) ← LocalParameterComputation fuel c 0 st
        .ok (((a.floor : Int) : Rat), st1)
    | .parametrized_reference =>
        -- fixpoint = get<Fixpoint*>(get<FixpointReference>(children[0]).value)
        match c.children.get? 0 with
        | some (.ref (.cell fixpointPtr)) => do
            let (evaluatedParameter, st1) ← LocalParameterComputation fuel c 1 st
            match storeFind st1.store fixpointPtr with
            | some fp => do
                let computation ← fp.pattern_match evaluatedParameter
                let (returnValue, store2) ←
                  applyCall fuel computation evaluatedParameter st1.store
                .ok (returnValue, ⟨store2, st1.cache⟩)
            | none => .error .undefinedBehavior
        | some (.ref (.val _)) => .error .badVariantAccess
        | some _ => .error .badVariantAccess
        | none => .error .undefinedBehavior
    | .parametrized_equivalence => .ok (-1, st)
    | .next_layer_equivalence =>
        match c.children.get? 0 with
        | some (.ref (.cell fixpointPtr)) => nlLoop fuel c fixpointPtr st
        | some (.ref (.val _)) => .error .badVariantAccess
        | some _ => .error .badVariantAccess
        | none => .error .undefinedBehavior

/-- The `LocalParameterComputation` lambda of `Computation`: evaluate the
child at `index` according to its variant alternative.  A reference read can
only touch the cache; a parameter read is pure up to the cache parameter. -/
def LocalParameterComputation : Nat → FixpointComputation → Nat → EvalState →
    Except EvalErr (Rat × EvalState)
  | 0, _, _, _ => .error .outOfFuel
  | fuel+1, c, index, st =>
    match c.children.get? index with
    | some (.ref r) =>
        match r.ToT st.store st.cache with
        | .ok (v, cache2) => .ok (v, ⟨st.store, cache2⟩)
        | .error e => .error e
    | some (.comp c2) => Computation fuel c2 st
    | some (.param p) =>
        match paramEvaluate fuel p st.cache with
        | .ok v => .ok (v, st)
        | .error e => .error e
    | none => .error .undefinedBehavior

/-- `FixpointComputation::operator()(T parameter1)`: dispatch entry point.
A fresh cache is allocated and the parameter registered in it; on a
`parametrized_equivalence` node (a registered equation) the equation is
re-resolved on the cell stored in its left-hand side and the right-hand side
body is evaluated; any other node is evaluated directly.  The unused
`static int layer` counter of the source has no observable effect and is
omitted.  Returns the value together with the (possibly mutated) heap; the
local cache dies with the call. -/
def applyCall : Nat → FixpointComputation → Rat → CellStore →
    Except EvalErr (Rat × CellStore)
  | 0, _, _, _ => .error .outOfFuel
  | fuel+1, c, parameter1, store =>
    let cache : FixpointCache :=
      FixpointCache.register_parameter ⟨[], none⟩ parameter1
    if c.operation = .parametrized_equivalence then
      match c.children.get? 0 with
      | some (.comp computationReference) =>
        match computationReference.children.get? 0 with
        | some (.ref (.cell fixpointPtr)) =>
          match storeFind store fixpointPtr with
          | some fp => do
            let computation ← fp.pattern_match parameter1
            -- the value is children[1]
            match computation.children.get? 1 with
            | some (.comp vc) => do
                let (r, st2) ← Computation fuel vc ⟨store, cache⟩
                .ok (r, st2.store)
            | some (.ref vr) =>
                match vr.ToT store cache with
                | .ok (r, _) => .ok (r, store)
                | .error e => .error e
            | some (.param _) => .error .unsupportedComputation
            | none => .error .undefinedBehavior
          | none => .error .undefinedBehavior
        | some (.ref (.val _)) => .error .badVariantAccess
        | some _ => .error .badVariantAccess
        | none => .error .undefinedBehavior
      | some _ => .error .badVariantAccess
      | none => .error .undefinedBehavior
    else do
      let (r, st2) ← Computation fuel c ⟨store, cache⟩
      .ok (r, st2.store)

/-- The `next_layer_equivalence` do-while loop of `Computation`: evaluate the
body (`children[1]`), read the previous iterate from the cache (an unchecked
read), store the new iterate on the cell and in the cache, and repeat until
`|newLayer - oldLayer|` is within `delta`; finally return the live cell
value. -/
def nlLoop : Nat → FixpointComputation → CellId → EvalState →
    Except EvalErr (Rat × EvalState)
  | 0, _, _, _ => .error .outOfFuel
  | fuel+1, c, fixpointPtr, st => do
      let (newLayer, st1) ← LocalParameterComputation fuel c 1 st
      match st1.cache.get fixpointPtr with
      | .error e => .error e
      | .ok oldLayer =>
        let st2 : EvalState :=
          ⟨storeSetValue st1.store fixpointPtr newLayer,
           st1.cache.remember fixpointPtr newLayer⟩
        if delta < |newLayer - oldLayer| then
          nlLoop fuel c fixpointPtr st2
        else
          match storeFind st2.store fixpointPtr with
          | some fp => .ok (fp.value, st2)
          | none => .error .undefinedBehavior
end

/-- `FixpointComputation::operator()()`: top-level evaluation with a fresh
cache over the given heap. -/
def evalTop (fuel : Nat) (c : FixpointComputation) (store : CellStore) :
    Except EvalErr (Rat × EvalState) :=
  Computation fuel c ⟨store, ⟨[], none⟩⟩

/-- One iteration of the `next_layer_equivalence` loop, factored out of
`nlLoop` for stating theorems: the new iterate, the previous iterate read
from the cache, and the state after writing the new iterate to the cell and
the cache. -/
def nlStep (fuel : Nat) (c : FixpointComputation) (fixpointPtr : CellId)
    (st : EvalState) : Except EvalErr (Rat × Rat × EvalState) := do
  let (newLayer, st1) ← LocalParameterComputation fuel c 1 st
  match st1.cache.get fixpointPtr with
  | .error e => .error e
  | .ok oldLayer =>
      .ok (newLayer, oldLayer,
        ⟨storeSetValue st1.store fixpointPtr newLayer,
         st1.cache.remember fixpointPtr newLayer⟩)

/-- The value projection of an evaluator result. -/
def resValue (r : Except EvalErr (Rat × EvalState)) : Except EvalErr Rat :=
  r.map Prod.fst

/-- The equation node built by `Fixpoint::operator()(FixpointParameter)`
followed by `FixpointParameterComputation::operator=`: the left-hand side
(a `parametrized_reference` over the cell and the pattern) paired with the
right-hand side child under `parametrized_equivalence`.  Registration pushes
this node onto the cell equation list, so list order is insertion order. -/
def mkEquation (cid : CellId) (pat : FixpointParameter) (rhs : FixpointChild) :
    FixpointComputation :=
  .mk [.comp (.mk [.ref (.cell cid), .param pat] .parametrized_reference), rhs]
    .parametrized_equivalence

/-! ### Monad unfolding lemmas for `Except` -/

@[simp]
theorem except_bind_ok {α β : Type} (a : α) (f : α → Except EvalErr β) :
    (Except.ok a : Except EvalErr α) >>= f = f a := rfl

@[simp]
theorem except_bind_error {α β : Type} (e : EvalErr) (f : α → Except EvalErr β) :
    (Except.error e : Except EvalErr α) >>= f = .error e := rfl

@[simp]
theorem except_pure_eq_ok {α : Type} (a : α) :
    (pure a : Except EvalErr α) = .ok a := rfl

/-! ### Cache and store lemmas -/

theorem cacheFind_cacheReplace_self (l : List (CellId × Rat)) (cid : CellId)
    (v : Rat) :
    cacheFind (cacheReplace l cid v) cid = (cacheFind l cid).map (fun _ => v) := by
  induction l with
  | nil => rfl
  | cons p rest ih =>
    obtain ⟨i, w⟩ := p
    by_cases h : i = cid
    · subst h
      simp [cacheReplace, cacheFind]
    · simp [cacheReplace, cacheFind, h]
      exact ih

theorem cacheFind_append_right (l : List (CellId × Rat)) (cid : CellId)
    (v : Rat) (h : cacheFind l cid = none) :
    cacheFind (l ++ [(cid, v)]) cid = some v := by
  induction l with
  | nil => simp [cacheFind]
  | cons p rest ih =>
    by_cases hp : p.1 = cid
    · simp [cacheFind, hp] at h
    · simp [cacheFind, hp] at h ⊢
      exact ih h

theorem cacheFind_remember_self (c : FixpointCache) (cid : CellId) (v : Rat) :
    cacheFind (c.remember cid v).cacheFixpoints cid = some v := by
  unfold FixpointCache.remember
  by_cases h : c.contains cid
  · simp only [h, if_true]
    have hw : ∃ w, cacheFind c.cacheFixpoints cid = some w := by
      unfold FixpointCache.contains at h
      cases hf : cacheFind c.cacheFixpoints cid with
      | none => simp [hf] at h
      | some w => exact ⟨w, rfl⟩
    obtain ⟨w, hw⟩ := hw
    simp [cacheFind_cacheReplace_self, hw]
  · simp only [h, if_false]
    have hn : cacheFind c.cacheFixpoints cid = none := by
      unfold FixpointCache.contains at h
      cases hf : cacheFind c.cacheFixpoints cid with
      | none => rfl
      | some w => simp [hf] at h
    exact cacheFind_append_right _ _ _ hn

theorem get_remember_self (c : FixpointCache) (cid : CellId) (v : Rat) :
    (c.remember cid v).get cid = .ok v := by
  unfold FixpointCache.get
  simp [cacheFind_remember_self]

theorem storeFind_storeSetValue_self (s : CellStore) (cid : CellId) (v : Rat) :
    storeFind (storeSetValue s cid v) cid =
      (storeFind s cid).map (fun fp => { fp with value := v }) := by
  induction s with
  | nil => rfl
  | cons p rest ih =>
    obtain ⟨i, fp⟩ := p
    by_cases h : i = cid
    · subst h
      simp [storeSetValue, storeFind]
    · simp [storeSetValue, storeFind, h]
      exact ih

/-! ### Claim C10 -/

/-- Claim C10: directly evaluating an `Equation` node (a
`parametrized_equivalence` computation, outside the registration and dispatch
path) returns the constant -1 and leaves the state (cache and every cell)
unchanged. -/
theorem direct_equation_eval_returns_minus_one (fuel : Nat)
    (children : List FixpointChild) (st : EvalState) :
    Computation (fuel+1) (.mk children .parametrized_equivalence) st =
      .ok (-1, st) := rfl

/-! ### Claim C7 -/

/-- Claim C7: `FixpointCache::get` on a cell with no entry does not raise an
explicit CacheMiss error; it dereferences the end iterator of the map,
undefined behaviour in the source (first conjunct evaluates the embedded code
at the failing input).  After a `remember`, `get` returns the remembered
value (second conjunct). -/
theorem cache_get_miss_undefined :
    FixpointCache.get ⟨[], none⟩ 0 = .error .undefinedBehavior ∧
    (FixpointCache.remember ⟨[], none⟩ 0 5).get 0 = .ok 5 :=
  ⟨rfl, rfl⟩

/-! ### Claim C5 -/

/-- Claim C5: pattern dispatch on a cell whose only equation has pattern
`constant(0)`, called with argument 1, does not raise an explicit
NoMatchingEquation error; the source indexes `validMatches[0]` on an empty
vector, undefined behaviour, evaluated here at the failing input. -/
theorem pattern_dispatch_no_match_undefined :
    Fixpoint.pattern_match
        ⟨0, [mkEquation 0 (.ofInt 0) (.ref (.val 1))]⟩ 1 =
      .error .undefinedBehavior := rfl

/-! ### Claim C8 -/

/-- Claim C8: reading the active parameter before it is bound fails with the
explicit error thrown by `get_parameter` (the source throws
`std::logic_error("Invalid access.")`, the spec name for it is
UnboundParameter), both directly and when reached from a wildcard parameter
slot; once a parameter is bound, both reads return the bound value. -/
theorem parameter_read_before_bind_fails (cache : FixpointCache) (fuel : Nat)
    (ch : List FixpointParameter) :
    (cache.parameter = none →
      cache.get_parameter = .error .invalidAccess ∧
      paramEvaluate (fuel+1) (.mk none .variable_ ch none) cache =
        .error .invalidAccess) ∧
    (∀ v : Rat, cache.parameter = some v →
      cache.get_parameter = .ok v ∧
      paramEvaluate (fuel+1) (.mk none .variable_ ch none) cache = .ok v) := by
  constructor
  · intro h
    constructor
    · simp [FixpointCache.get_parameter, h]
    · simp [paramEvaluate, FixpointParameter.operation, FixpointParameter.value,
        FixpointCache.get_parameter, h]
  · intro v h
    constructor
    · simp [FixpointCache.get_parameter, h]
    · simp [paramEvaluate, FixpointParameter.operation, FixpointParameter.value,
        FixpointCache.get_parameter, h]

/-- Witness for C8 at the empty cache and at a cache with parameter 7. -/
theorem parameter_read_before_bind_fails_witness :
    FixpointCache.get_parameter ⟨[], none⟩ = .error .invalidAccess ∧
    paramEvaluate 1 (.mk none .variable_ [] none) ⟨[], none⟩ =
      .error .invalidAccess ∧
    FixpointCache.get_parameter ⟨[], some 7⟩ = .ok 7 ∧
    paramEvaluate 1 (.mk none .variable_ [] none) ⟨[], some 7⟩ = .ok 7 := by
  have h1 := (parameter_read_before_bind_fails ⟨[], none⟩ 0 []).1 rfl
  have h2 := (parameter_read_before_bind_fails ⟨[], some 7⟩ 0 []).2 7 rfl
  exact ⟨h1.1, h1.2, h2.1, h2.2⟩

/-! ### Claim C3 -/

/-- An uncached cell read through `ToT` snapshots the live cell value into
the cache and returns it (shared helper). -/
theorem ToT_snapshot_uncached (cid : CellId) (store : CellStore)
    (cache : FixpointCache) (fp : Fixpoint)
    (hnc : cache.contains cid = false) (hfind : storeFind store cid = some fp) :
    FixpointReference.ToT (.cell cid) store cache =
      .ok (fp.value, cache.remember cid fp.value) := by
  simp [FixpointReference.ToT, hnc, hfind, get_remember_self, Except.bind]

/-- A cached cell read through `ToT` returns the cached value for any heap
and leaves the cache unchanged (shared helper). -/
theorem ToT_cached (cid : CellId) (store : CellStore) (cache : FixpointCache)
    (w : Rat) (hw : cacheFind cache.cacheFixpoints cid = some w) :
    FixpointReference.ToT (.cell cid) store cache = .ok (w, cache) := by
  have hc : cache.contains cid = true := by
    simp [FixpointCache.contains, hw]
  simp [FixpointReference.ToT, hc, FixpointCache.get, hw, Except.bind]

/-- Claim C3: evaluating a cell reference through the cache snapshots the
live value on first read and never consults it again within the pass.
First conjunct: an uncached read stores the live `value` in the cache and
returns it.  Second conjunct: a cached read returns the cached value for any
heap whatsoever (the live value is not consulted) and leaves the cache
unchanged.  Third conjunct: after an uncached read, a second read of the same
cell against an arbitrarily mutated heap returns the same value with the
cache unchanged. -/
theorem cellref_cache_snapshot :
    (∀ (cid : CellId) (store : CellStore) (cache : FixpointCache)
        (fp : Fixpoint),
      cache.contains cid = false → storeFind store cid = some fp →
      FixpointReference.ToT (.cell cid) store cache =
        .ok (fp.value, cache.remember cid fp.value)) ∧
    (∀ (cid : CellId) (store : CellStore) (cache : FixpointCache) (w : Rat),
      cacheFind cache.cacheFixpoints cid = some w →
      FixpointReference.ToT (.cell cid) store cache = .ok (w, cache)) ∧
    (∀ (cid : CellId) (store₁ store₂ : CellStore) (cache : FixpointCache)
        (fp : Fixpoint),
      cache.contains cid = false → storeFind store₁ cid = some fp →
      FixpointReference.ToT (.cell cid) store₂ (cache.remember cid fp.value) =
        .ok (fp.value, cache.remember cid fp.value)) := by
  refine ⟨?_, ?_, ?_⟩
  · intro cid store cache fp hnc hfind
    exact ToT_snapshot_uncached cid store cache fp hnc hfind
  · intro cid store cache w hw
    exact ToT_cached cid store cache w hw
  · intro cid store₁ store₂ cache fp hnc hfind
    exact ToT_cached cid store₂ (cache.remember cid fp.value) fp.value
      (cacheFind_remember_self cache cid fp.value)

/-- Witness for C3: cell 0 holds 3; the first read snapshots 3 into the
cache; a second read against a heap where the cell was mutated to 99 still
returns 3 and leaves the cache unchanged. -/
theorem cellref_cache_snapshot_witness :
    FixpointReference.ToT (.cell 0) [(0, ⟨3, []⟩)] ⟨[], none⟩ =
      .ok (3, ⟨[(0, 3)], none⟩) ∧
    FixpointReference.ToT (.cell 0) [(0, ⟨99, []⟩)] ⟨[(0, 3)], none⟩ =
      .ok (3, ⟨[(0, 3)], none⟩) := by
  constructor
  · exact cellref_cache_snapshot.1 0 [(0, ⟨3, []⟩)] ⟨[], none⟩ ⟨3, []⟩ rfl rfl
  · exact cellref_cache_snapshot.2.1 0 [(0, ⟨99, []⟩)] ⟨[(0, 3)], none⟩ 3 rfl

/-! ### Claim C2 -/

theorem patternMatchAux_ok_of_all (t : Rat) :
    ∀ l : List FixpointComputation,
      (∀ e ∈ l, ∃ b, e.matchArg t = .ok b) →
      ∃ ms, patternMatchAux t l = .ok ms := by
  intro l
  induction l with
  | nil => exact fun _ => ⟨[], rfl⟩
  | cons c rest ih =>
    intro h
    obtain ⟨b, hb⟩ := h c (List.mem_cons_self c rest)
    obtain ⟨ms, hms⟩ := ih fun e he => h e (List.mem_cons_of_mem c he)
    cases b
    · exact ⟨ms, by simp [patternMatchAux, hb, hms]⟩
    · exact ⟨c :: ms, by simp [patternMatchAux, hb, hms]⟩

theorem patternMatchAux_first (t : Rat) (eq : FixpointComputation)
    (l₂ : List FixpointComputation) :
    ∀ l₁ : List FixpointComputation,
      (∀ e ∈ l₁, e.matchArg t = .ok false) →
      eq.matchArg t = .ok true →
      (∀ e ∈ l₂, ∃ b, e.matchArg t = .ok b) →
      ∃ ms, patternMatchAux t (l₁ ++ eq :: l₂) = .ok (eq :: ms) := by
  intro l₁
  induction l₁ with
  | nil =>
    intro _ heq h₂
    obtain ⟨ms, hms⟩ := patternMatchAux_ok_of_all t l₂ h₂
    exact ⟨ms, by simp [patternMatchAux, heq, hms]⟩
  | cons c rest ih =>
    intro h₁ heq h₂
    obtain ⟨ms, hms⟩ :=
      ih (fun e he => h₁ e (List.mem_cons_of_mem c he)) heq h₂
    have hc : c.matchArg t = .ok false := h₁ c (List.mem_cons_self c rest)
    exact ⟨ms, by simp [patternMatchAux, hc, hms]⟩

/-- Claim C2: pattern dispatch returns the first equation in insertion
(registration) order whose pattern matches the argument.  First conjunct:
if the equation list splits as `l₁ ++ eq :: l₂` where nothing in `l₁`
matches, `eq` matches, and the remaining equations are at least well-formed
enough for `match` to return, then dispatch returns `eq`.  Second conjunct:
for an equation of the registered shape (left-hand side holding the pattern
in its second child), `match` succeeds with `true` exactly when the pattern
is the wildcard (`variable`) or a `constant(k)` with `k` equal to the
argument. -/
theorem pattern_dispatch_first_match :
    (∀ (f : Fixpoint) (t : Rat) (l₁ l₂ : List FixpointComputation)
        (eq : FixpointComputation),
      f.fixpointComputations = l₁ ++ eq :: l₂ →
      (∀ e ∈ l₁, e.matchArg t = .ok false) →
      eq.matchArg t = .ok true →
      (∀ e ∈ l₂, ∃ b, e.matchArg t = .ok b) →
      f.pattern_match t = .ok eq) ∧
    (∀ (pat : FixpointParameter) (op₁ op₂ : FixpointOperation)
        (c₀ : FixpointChild) (rest₁ rest₂ : List FixpointChild) (t : Rat),
      (FixpointComputation.mk
          (.comp (.mk (c₀ :: .param pat :: rest₁) op₁) :: rest₂)
          op₂).matchArg t = .ok true ↔
        (pat.generalType = .variable_ ∨
          ∃ k, pat.value = some k ∧ (k : Rat) = t)) := by
  constructor
  · intro f t l₁ l₂ eq hsplit h₁ heq h₂
    obtain ⟨ms, hms⟩ := patternMatchAux_first t eq l₂ l₁ h₁ heq h₂
    unfold Fixpoint.pattern_match
    rw [hsplit, hms]
    simp
  · intro pat op₁ op₂ c₀ rest₁ rest₂ t
    obtain ⟨v, g, ch, op⟩ := pat
    cases g with
    | constant =>
      cases v with
      | none =>
        simp [FixpointComputation.matchArg, FixpointComputation.children,
          FixpointParameter.generalType, FixpointParameter.value]
      | some k =>
        simp [FixpointComputation.matchArg, FixpointComputation.children,
          FixpointParameter.generalType, FixpointParameter.value]
    | variable_ =>
      simp [FixpointComputation.matchArg, FixpointComputation.children,
        FixpointParameter.generalType, FixpointParameter.value]

/-- Witness for C2: on a cell with equations registered in the order
`(constant(0), body 10)` then `(wildcard, body 20)`, dispatch with argument 0
selects the first equation and dispatch with argument 5 selects the second. -/
theorem pattern_dispatch_first_match_witness :
    Fixpoint.pattern_match
        ⟨0, [mkEquation 0 (.ofInt 0) (.ref (.val 10)),
             mkEquation 0 .wildcard (.ref (.val 20))]⟩ 0 =
      .ok (mkEquation 0 (.ofInt 0) (.ref (.val 10))) ∧
    Fixpoint.pattern_match
        ⟨0, [mkEquation 0 (.ofInt 0) (.ref (.val 10)),
             mkEquation 0 .wildcard (.ref (.val 20))]⟩ 5 =
      .ok (mkEquation 0 .wildcard (.ref (.val 20))) := by
  constructor
  · apply pattern_dispatch_first_match.1 _ 0 []
      [mkEquation 0 .wildcard (.ref (.val 20))]
      (mkEquation 0 (.ofInt 0) (.ref (.val 10))) rfl
    · intro e he
      cases he
    · rfl
    · intro e he
      rw [List.mem_singleton] at he
      subst he
      exact ⟨true, rfl⟩
  · apply pattern_dispatch_first_match.1 _ 5
      [mkEquation 0 (.ofInt 0) (.ref (.val 10))] []
      (mkEquation 0 .wildcard (.ref (.val 20))) rfl
    · intro e he
      rw [List.mem_singleton] at he
      subst he
      rfl
    · rfl
    · intro e he
      cases he

/-! ### Next-layer loop lemmas (shared by C1 and C4) -/

theorem nlStep_ok_inv (fuel : Nat) (c : FixpointComputation) (cid : CellId)
    (st st2 : EvalState) (n o : Rat)
    (h : nlStep fuel c cid st = .ok (n, o, st2)) :
    ∃ st1, LocalParameterComputation fuel c 1 st = .ok (n, st1) ∧
      st1.cache.get cid = .ok o ∧
      st2 = ⟨storeSetValue st1.store cid n, st1.cache.remember cid n⟩ := by
  unfold nlStep at h
  cases hl : LocalParameterComputation fuel c 1 st with
  | error e =>
    rw [hl] at h
    simp at h
  | ok p =>
    obtain ⟨m, st1⟩ := p
    rw [hl] at h
    simp at h
    cases hg : st1.cache.get cid with
    | error e =>
      rw [hg] at h
      simp at h
    | ok o2 =>
      rw [hg] at h
      simp at h
      obtain ⟨hm, ho, hst⟩ := h
      subst hm
      subst ho
      subst hst
      exact ⟨st1, rfl, hg, rfl⟩

theorem nlLoop_succ_eq (fuel : Nat) (c : FixpointComputation) (cid : CellId)
    (st : EvalState) :
    nlLoop (fuel+1) c cid st =
      match nlStep fuel c cid st with
      | .error e => .error e
      | .ok (n, o, st2) =>
        if delta < |n - o| then nlLoop fuel c cid st2
        else
          match storeFind st2.store cid with
          | some fp => .ok (fp.value, st2)
          | none => .error .undefinedBehavior := by
  cases hl : LocalParameterComputation fuel c 1 st with
  | error e => simp [nlLoop, nlStep, hl]
  | ok p =>
    obtain ⟨m, st1⟩ := p
    cases hg : st1.cache.get cid with
    | error e => simp [nlLoop, nlStep, hl, hg]
    | ok o => simp [nlLoop, nlStep, hl, hg]

/-- Characterization of a successful run of the next-layer loop: the final
cell value equals the returned value, and the run decomposes into a first
iteration that either converges (difference within `delta`, with the new
iterate returned) or does not (difference beyond `delta`, with the loop
continuing from the updated state). -/
theorem nlLoop_ok_char :
    ∀ (fuel : Nat) (c : FixpointComputation) (cid : CellId) (st : EvalState)
      (v : Rat) (st' : EvalState),
      nlLoop fuel c cid st = .ok (v, st') →
      (storeFind st'.store cid).map Fixpoint.value = some v ∧
      ∃ f n o st2, fuel = f+1 ∧ nlStep f c cid st = .ok (n, o, st2) ∧
        ((|n - o| ≤ delta ∧ v = n ∧ st' = st2) ∨
         (delta < |n - o| ∧ nlLoop f c cid st2 = .ok (v, st'))) := by
  intro fuel
  induction fuel with
  | zero =>
    intro c cid st v st' h
    simp [nlLoop] at h
  | succ f ih =>
    intro c cid st v st' h
    rw [nlLoop_succ_eq] at h
    cases hstep : nlStep f c cid st with
    | error e =>
      rw [hstep] at h
      simp at h
    | ok triple =>
      obtain ⟨n, o, st2⟩ := triple
      rw [hstep] at h
      dsimp only at h
      by_cases hconv : delta < |n - o|
      · rw [if_pos hconv] at h
        obtain ⟨hpers, _⟩ := ih c cid st2 v st' h
        exact ⟨hpers, f, n, o, st2, rfl, hstep, .inr ⟨hconv, h⟩⟩
      · rw [if_neg hconv] at h
        cases hfind : storeFind st2.store cid with
        | none =>
          rw [hfind] at h
          simp at h
        | some fp =>
          rw [hfind] at h
          simp at h
          obtain ⟨hv, hst⟩ := h
          obtain ⟨st1, hl, hg, hst2⟩ := nlStep_ok_inv f c cid st st2 n o hstep
          have hfind2 : storeFind st2.store cid =
              (storeFind st1.store cid).map (fun fp => { fp with value := n }) := by
            rw [hst2]
            exact storeFind_storeSetValue_self _ _ _
          have hvn : fp.value = n := by
            rw [hfind2] at hfind
            cases hsf : storeFind st1.store cid with
            | none =>
              rw [hsf] at hfind
              simp at hfind
            | some fp1 =>
              rw [hsf] at hfind
              simp at hfind
              rw [← hfind]
          constructor
          · rw [← hst, hfind]
            simp [hv]
          · exact ⟨f, n, o, st2, rfl, hstep,
              .inl ⟨le_of_not_lt hconv, by rw [← hv, hvn], hst.symm⟩⟩

/-! ### Claim C1 -/

/-- Claim C1: whenever evaluation of a `NextLayer` node terminates, the
iteration loop exits on the first iteration at which the absolute difference
of the new and previous iterate is within `delta` (= 0.01): the run
decomposes iteration by iteration, continuing exactly while the difference
exceeds `delta` and stopping with the converged new iterate as the returned
value; and after the call the live cell value equals the returned value. -/
theorem nextLayer_terminates_at_first_convergence
    (fuel : Nat) (rest : List FixpointChild) (cid : CellId) (st : EvalState)
    (v : Rat) (st' : EvalState)
    (h : Computation (fuel+1)
        (.mk (.ref (.cell cid) :: rest) .next_layer_equivalence) st =
      .ok (v, st')) :
    (storeFind st'.store cid).map Fixpoint.value = some v ∧
    ∃ f n o st2, fuel = f+1 ∧
      nlStep f (.mk (.ref (.cell cid) :: rest) .next_layer_equivalence) cid st =
        .ok (n, o, st2) ∧
      ((|n - o| ≤ delta ∧ v = n ∧ st' = st2) ∨
       (delta < |n - o| ∧
         nlLoop f (.mk (.ref (.cell cid) :: rest) .next_layer_equivalence)
           cid st2 = .ok (v, st'))) := by
  have hunfold : Computation (fuel+1)
      (.mk (.ref (.cell cid) :: rest) .next_layer_equivalence) st =
      nlLoop fuel (.mk (.ref (.cell cid) :: rest) .next_layer_equivalence)
        cid st := rfl
  rw [hunfold] at h
  exact nlLoop_ok_char fuel _ cid st v st' h

/-- The body `x * (1/2)` referencing cell 0, used in witnesses. -/
def nlBodyW : FixpointComputation :=
  .mk [.ref (.cell 0), .ref (.val (1/2))] .multiplication

/-- The `NextLayer` node iterating `nlBodyW` on cell 0. -/
def nlNodeW : FixpointComputation :=
  .mk [.ref (.cell 0), .comp nlBodyW] .next_layer_equivalence

/-- Initial state for the witnesses: cell 0 holds 1/16, empty cache. -/
def nlStartW : EvalState := ⟨[(0, ⟨1/16, []⟩)], ⟨[], none⟩⟩

/-- Final state of the witness run: the loop halves 1/16 three times and
stops at 1/128, the first iterate whose step is within `delta`. -/
def nlFinalW : EvalState := ⟨[(0, ⟨1/128, []⟩)], ⟨[(0, 1/128)], none⟩⟩

/-- Witness for C1: the concrete halving iteration from 1/16 converges to
1/128 and persists it on the cell. -/
theorem nextLayer_terminates_at_first_convergence_witness :
    (storeFind nlFinalW.store 0).map Fixpoint.value = some ((1 : Rat)/128) := by
  have h : Computation 10 nlNodeW nlStartW = .ok (1/128, nlFinalW) := by
    norm_num [Computation, LocalParameterComputation, nlLoop,
      FixpointReference.ToT, FixpointCache.contains, FixpointCache.get,
      FixpointCache.remember, cacheFind, cacheReplace, storeFind,
      storeSetValue, delta, FixpointComputation.operation,
      FixpointComputation.children, abs_eq_max_neg, max_def,
      nlBodyW, nlNodeW, nlStartW, nlFinalW]
  exact (nextLayer_terminates_at_first_convergence 9 [.comp nlBodyW] 0 nlStartW
    (1/128) nlFinalW h).1

/-! ### Claim C4 -/

/-- Counterexample to C4: a `NextLayer` node on cell 0 (live value 0, no
cache entry) whose body is the plain constant 5 never touches the cell, so
the unchecked cache read fails: evaluation is not well-defined, against the
claim that the previous iterate falls back to the live cell value. -/
theorem nextLayer_uncached_fails_cex :
    Computation 10
        (.mk [.ref (.cell 0), .ref (.val 5)] .next_layer_equivalence)
        ⟨[(0, ⟨0, []⟩)], ⟨[], none⟩⟩ =
      .error .undefinedBehavior := rfl

/-- Claim C4 (amended): the previous iterate of the next-layer loop is read
from the cache only after the first body evaluation.  First conjunct: if the
body evaluation succeeds and leaves a cache entry for the cell (in
particular when the entry existed at loop entry, or when the body itself
references the cell), that entry is the previous iterate; if instead the
cell is still uncached after the body evaluation, the unchecked cache read
is undefined behaviour and the evaluation fails.  Second conjunct: a body
reference to an uncached cell snapshots the live cell value into the cache,
so for self-referential bodies the fallback previous iterate is exactly the
live current value. -/
theorem nextLayer_oldValue_from_cache_amended
    (fuel : Nat) (c : FixpointComputation) (cid : CellId) (st st1 : EvalState)
    (n w : Rat) :
    (LocalParameterComputation fuel c 1 st = .ok (n, st1) →
      (cacheFind st1.cache.cacheFixpoints cid = some w →
        nlStep fuel c cid st =
          .ok (n, w, ⟨storeSetValue st1.store cid n,
            st1.cache.remember cid n⟩)) ∧
      (cacheFind st1.cache.cacheFixpoints cid = none →
        nlStep fuel c cid st = .error .undefinedBehavior)) ∧
    (∀ (store : CellStore) (cache : FixpointCache) (fp : Fixpoint),
      cache.contains cid = false → storeFind store cid = some fp →
      FixpointReference.ToT (.cell cid) store cache =
        .ok (fp.value, cache.remember cid fp.value) ∧
      cacheFind (cache.remember cid fp.value).cacheFixpoints cid =
        some fp.value) := by
  constructor
  · intro hbody
    constructor
    · intro hcf
      simp [nlStep, hbody, FixpointCache.get, hcf]
    · intro hcf
      simp [nlStep, hbody, FixpointCache.get, hcf]
  · intro store cache fp hnc hfind
    exact ⟨ToT_snapshot_uncached cid store cache fp hnc hfind,
      cacheFind_remember_self cache cid fp.value⟩

/-- Witness for C4 (amended): the first iteration of the witness run reads
the previous iterate 1/16 remembered by the body reference; the same step on
the constant body fails; the snapshot conjunct at the same concrete cell. -/
theorem nextLayer_oldValue_from_cache_amended_witness :
    nlStep 8 nlNodeW 0 nlStartW =
      .ok (1/32, 1/16, ⟨[(0, ⟨1/32, []⟩)], ⟨[(0, 1/32)], none⟩⟩) ∧
    nlStep 8 (.mk [.ref (.cell 0), .ref (.val 5)] .next_layer_equivalence) 0
        ⟨[(0, ⟨0, []⟩)], ⟨[], none⟩⟩ =
      .error .undefinedBehavior ∧
    FixpointReference.ToT (.cell 0) [(0, ⟨1/16, []⟩)] ⟨[], none⟩ =
      .ok (1/16, ⟨[(0, 1/16)], none⟩) := by
  have hbody : LocalParameterComputation 8 nlNodeW 1 nlStartW =
      .ok (1/32, ⟨[(0, ⟨1/16, []⟩)], ⟨[(0, 1/16)], none⟩⟩) := by
    norm_num [Computation, LocalParameterComputation, FixpointReference.ToT,
      FixpointCache.contains, FixpointCache.get, FixpointCache.remember,
      cacheFind, cacheReplace, storeFind, storeSetValue,
      FixpointComputation.operation, FixpointComputation.children,
      nlBodyW, nlNodeW, nlStartW]
  refine ⟨?_, ?_, ?_⟩
  · exact ((nextLayer_oldValue_from_cache_amended 8 nlNodeW 0 nlStartW
      ⟨[(0, ⟨1/16, []⟩)], ⟨[(0, 1/16)], none⟩⟩ (1/32) (1/16)).1 hbody).1 rfl
  · exact ((nextLayer_oldValue_from_cache_amended 8
      (.mk [.ref (.cell 0), .ref (.val 5)] .next_layer_equivalence) 0
      ⟨[(0, ⟨0, []⟩)], ⟨[], none⟩⟩
      ⟨[(0, ⟨0, []⟩)], ⟨[], none⟩⟩ 5 0).1 rfl).2 rfl
  · exact ((nextLayer_oldValue_from_cache_amended 8 nlNodeW 0 nlStartW
      nlStartW 0 0).2 [(0, ⟨1/16, []⟩)] ⟨[], none⟩ ⟨1/16, []⟩ rfl rfl).1

/-! ### Claim C6 -/

/-- Claim C6: evaluating a `Call` node (`parametrized_reference`) first
evaluates the argument child to a value `v` (mutating the outer cache),
then resolves the equation on the cell by pattern dispatch with `v`, then
evaluates that equation's right-hand-side body in a fresh nested cache scope
with `v` bound as the active parameter; the result of the `Call` is the
result of the body, the heap left by the body persists, and the outer cache
is the one left by the argument evaluation.  (The source re-resolves the
equation inside `operator()(T)` through the cell stored in the matched
left-hand side: hypotheses h5 to h8 spell that second dispatch out; for
registered equations it lands on the same cell and equation.)  The second
conjunct: under the nested cache every wildcard parameter slot evaluates to
the bound `v`. -/
theorem call_binds_parameter_and_evaluates_body
    (fuel : Nat) (cid cid2 : CellId) (argCh : FixpointChild)
    (rest : List FixpointChild) (st st1 : EvalState) (v : Rat)
    (fp fp2 : Fixpoint) (eq eq2 lhs body : FixpointComputation)
    (h1 : LocalParameterComputation (fuel+1)
        (.mk (.ref (.cell cid) :: argCh :: rest) .parametrized_reference) 1
        st = .ok (v, st1))
    (h2 : storeFind st1.store cid = some fp)
    (h3 : fp.pattern_match v = .ok eq)
    (h4 : eq.operation = .parametrized_equivalence)
    (h5 : eq.children.get? 0 = some (.comp lhs))
    (h6 : lhs.children.get? 0 = some (.ref (.cell cid2)))
    (h7 : storeFind st1.store cid2 = some fp2)
    (h8 : fp2.pattern_match v = .ok eq2)
    (h9 : eq2.children.get? 1 = some (.comp body)) :
    Computation (fuel+2)
        (.mk (.ref (.cell cid) :: argCh :: rest) .parametrized_reference) st =
      (Computation fuel body ⟨st1.store, ⟨[], some v⟩⟩).bind
        (fun rs => .ok (rs.1, ⟨rs.2.store, st1.cache⟩)) ∧
    (∀ (g : Nat) (cf : List (CellId × Rat)) (chl : List FixpointParameter),
      paramEvaluate (g+1) (.mk none .variable_ chl none) ⟨cf, some v⟩ =
        .ok v) := by
  constructor
  · have happly : applyCall (fuel+1) eq v st1.store =
        (Computation fuel body ⟨st1.store, ⟨[], some v⟩⟩).bind
          (fun rs => .ok (rs.1, rs.2.store)) := by
      simp only [applyCall, FixpointCache.register_parameter]
      rw [h4, if_pos rfl, h5]
      dsimp only
      rw [h6]
      dsimp only
      rw [h7]
      dsimp only
      rw [h8]
      simp only [except_bind_ok]
      rw [h9]
      cases hc : Computation fuel body ⟨st1.store, ⟨[], some v⟩⟩ with
      | error e => simp [Except.bind, hc]
      | ok rs => simp [Except.bind, hc]
    dsimp only [Computation, FixpointComputation.operation,
      FixpointComputation.children, List.get?]
    rw [h1]
    simp only [except_bind_ok]
    rw [h2]
    dsimp only
    rw [h3]
    simp only [except_bind_ok]
    rw [happly]
    cases hc : Computation fuel body ⟨st1.store, ⟨[], some v⟩⟩ with
    | error e => simp [Except.bind, hc]
    | ok rs => simp [Except.bind, hc]
  · intro g cf chl
    simp [paramEvaluate, FixpointParameter.operation, FixpointParameter.value,
      FixpointCache.get_parameter]

/-- The left-hand side node of the witness equation: cell 0 applied to the
wildcard pattern. -/
def lhsW : FixpointComputation :=
  .mk [.ref (.cell 0), .param .wildcard] .parametrized_reference

/-- The right-hand side body of the witness equation: parameter plus one. -/
def rhsBodyW : FixpointComputation :=
  .mk [.param .wildcard, .ref (.val 1)] .addition

/-- The registered witness equation: wildcard pattern with body `n + 1`. -/
def eqWitness : FixpointComputation :=
  .mk [.comp lhsW, .comp rhsBodyW] .parametrized_equivalence

/-- The witness call node: cell 0 called with constant argument 3. -/
def callNodeW : FixpointComputation :=
  .mk [.ref (.cell 0), .param (.ofInt 3)] .parametrized_reference

/-- Initial state for the C6 witness: cell 0 carries the wildcard equation. -/
def stC6 : EvalState := ⟨[(0, ⟨0, [eqWitness]⟩)], ⟨[], none⟩⟩

/-- Witness for C6 at the concrete call `f(3)` against the wildcard equation
with body `n + 1`: the call evaluates the body under the nested cache that
binds 3, and a wildcard slot under that cache reads back 3. -/
theorem call_binds_parameter_and_evaluates_body_witness :
    Computation 10 callNodeW stC6 =
      (Computation 8 rhsBodyW ⟨stC6.store, ⟨[], some 3⟩⟩).bind
        (fun rs => .ok (rs.1, ⟨rs.2.store, stC6.cache⟩)) ∧
    paramEvaluate 1 (.mk none .variable_ [] none) ⟨[], some 3⟩ = .ok 3 := by
  have hbody : LocalParameterComputation 9 callNodeW 1 stC6 = .ok (3, stC6) := by
    norm_num [LocalParameterComputation, paramEvaluate,
      FixpointParameter.operation, FixpointParameter.value,
      FixpointParameter.ofInt, FixpointComputation.children, callNodeW]
  have h := call_binds_parameter_and_evaluates_body 8 0 0 (.param (.ofInt 3))
    [] stC6 stC6 3 ⟨0, [eqWitness]⟩ ⟨0, [eqWitness]⟩ eqWitness eqWitness lhsW
    rhsBodyW hbody rfl rfl rfl rfl rfl rfl rfl rfl
  exact ⟨h.1, h.2 0 [] []⟩

/-! ### Claim C9 -/

mutual
/-- No `CellRef` (cell pointer reference) occurs anywhere in the tree. -/
def noCellRefComp : FixpointComputation → Bool
  | .mk children _ => noCellRefChildren children

/-- `noCellRefComp` over a child list. -/
def noCellRefChildren : List FixpointChild → Bool
  | [] => true
  | c :: rest => noCellRefChild c && noCellRefChildren rest

/-- `noCellRefComp` for one child: parameters and plain values are free of
cell references; a cell pointer is one. -/
def noCellRefChild : FixpointChild → Bool
  | .param _ => true
  | .ref (.cell _) => false
  | .ref (.val _) => true
  | .comp c => noCellRefComp c
end

theorem noCellRefChildren_get (l : List FixpointChild) :
    noCellRefChildren l = true →
    ∀ (i : Nat) (ch : FixpointChild), l[i]? = some ch →
    noCellRefChild ch = true := by
  induction l with
  | nil =>
    intro _ i ch h
    simp at h
  | cons x xs ih =>
    intro hall i ch h
    rw [noCellRefChildren, Bool.and_eq_true] at hall
    cases i with
    | zero =>
      rw [List.getElem?_cons_zero] at h
      injection h with hh
      subst hh
      exact hall.1
    | succ n =>
      rw [List.getElem?_cons_succ] at h
      exact ih hall.2 n ch h

/-- Two evaluator results agree up to the initial heaps: same error, or same
value and cache with each final heap equal to the corresponding initial
heap. -/
def storeFreeAgree (s₁ s₂ : CellStore) :
    Except EvalErr (Rat × EvalState) → Except EvalErr (Rat × EvalState) → Prop
  | .error e₁, .error e₂ => e₁ = e₂
  | .ok (v₁, t₁), .ok (v₂, t₂) =>
      v₁ = v₂ ∧ t₁.cache = t₂.cache ∧ t₁.store = s₁ ∧ t₂.store = s₂
  | _, _ => False

theorem storeFreeAgree_bind (s₁ s₂ : CellStore)
    (r₁ r₂ : Except EvalErr (Rat × EvalState))
    (k₁ k₂ : Rat × EvalState → Except EvalErr (Rat × EvalState))
    (hr : storeFreeAgree s₁ s₂ r₁ r₂)
    (hk : ∀ (v : Rat) (cache : FixpointCache),
      storeFreeAgree s₁ s₂ (k₁ (v, ⟨s₁, cache⟩)) (k₂ (v, ⟨s₂, cache⟩))) :
    storeFreeAgree s₁ s₂ (r₁ >>= k₁) (r₂ >>= k₂) := by
  cases r₁ with
  | error e₁ =>
    cases r₂ with
    | error e₂ => simpa [storeFreeAgree] using hr
    | ok p => exact absurd hr (by simp [storeFreeAgree])
  | ok p₁ =>
    cases r₂ with
    | error e => exact absurd hr (by simp [storeFreeAgree])
    | ok p₂ =>
      obtain ⟨v₁, t₁⟩ := p₁
      obtain ⟨v₂, t₂⟩ := p₂
      simp only [storeFreeAgree] at hr
      obtain ⟨hv, hc, hs₁, hs₂⟩ := hr
      subst hv
      obtain ⟨ts₁, tc₁⟩ := t₁
      obtain ⟨ts₂, tc₂⟩ := t₂
      simp only at hc hs₁ hs₂
      subst hc
      subst hs₁
      subst hs₂
      simpa using hk v₁ tc₁

/-- Evaluation of a cell-reference-free computation does not depend on the
heap and leaves it unchanged: the results from any two heaps (same cache)
agree, both for `Computation` and for child evaluation. -/
theorem eval_store_indep (fuel : Nat) :
    (∀ (c : FixpointComputation) (cache : FixpointCache) (s₁ s₂ : CellStore),
      noCellRefComp c = true →
      storeFreeAgree s₁ s₂ (Computation fuel c ⟨s₁, cache⟩)
        (Computation fuel c ⟨s₂, cache⟩)) ∧
    (∀ (c : FixpointComputation) (i : Nat) (cache : FixpointCache)
        (s₁ s₂ : CellStore),
      noCellRefComp c = true →
      storeFreeAgree s₁ s₂ (LocalParameterComputation fuel c i ⟨s₁, cache⟩)
        (LocalParameterComputation fuel c i ⟨s₂, cache⟩)) := by
  induction fuel with
  | zero =>
    constructor
    · intro c cache s₁ s₂ _
      simp [Computation, storeFreeAgree]
    · intro c i cache s₁ s₂ _
      simp [LocalParameterComputation, storeFreeAgree]
  | succ f ih =>
    obtain ⟨ihC, ihL⟩ := ih
    constructor
    · intro c cache s₁ s₂ hnc
      obtain ⟨children, op⟩ := c
      cases op with
      | division =>
        dsimp only [Computation, FixpointComputation.operation]
        refine storeFreeAgree_bind s₁ s₂ _ _ _ _
          (ihL ⟨children, .division⟩ 0 cache s₁ s₂ hnc) ?_
        intro a cache1
        dsimp only
        refine storeFreeAgree_bind s₁ s₂ _ _ _ _
          (ihL ⟨children, .division⟩ 1 cache1 s₁ s₂ hnc) ?_
        intro b cache2
        simp [storeFreeAgree]
      | multiplication =>
        dsimp only [Computation, FixpointComputation.operation]
        refine storeFreeAgree_bind s₁ s₂ _ _ _ _
          (ihL ⟨children, .multiplication⟩ 0 cache s₁ s₂ hnc) ?_
        intro a cache1
        dsimp only
        refine storeFreeAgree_bind s₁ s₂ _ _ _ _
          (ihL ⟨children, .multiplication⟩ 1 cache1 s₁ s₂ hnc) ?_
        intro b cache2
        simp [storeFreeAgree]
      | addition =>
        dsimp only [Computation, FixpointComputation.operation]
        refine storeFreeAgree_bind s₁ s₂ _ _ _ _
          (ihL ⟨children, .addition⟩ 0 cache s₁ s₂ hnc) ?_
        intro a cache1
        dsimp only
        refine storeFreeAgree_bind s₁ s₂ _ _ _ _
          (ihL ⟨children, .addition⟩ 1 cache1 s₁ s₂ hnc) ?_
        intro b cache2
        simp [storeFreeAgree]
      | subtraction =>
        dsimp only [Computation, FixpointComputation.operation]
        refine storeFreeAgree_bind s₁ s₂ _ _ _ _
          (ihL ⟨children, .subtraction⟩ 0 cache s₁ s₂ hnc) ?_
        intro a cache1
        dsimp only
        refine storeFreeAgree_bind s₁ s₂ _ _ _ _
          (ihL ⟨children, .subtraction⟩ 1 cache1 s₁ s₂ hnc) ?_
        intro b cache2
        simp [storeFreeAgree]
      | ceil =>
        dsimp only [Computation, FixpointComputation.operation]
        refine storeFreeAgree_bind s₁ s₂ _ _ _ _
          (ihL ⟨children, .ceil⟩ 0 cache s₁ s₂ hnc) ?_
        intro a cache1
        simp [storeFreeAgree]
      | floor =>
        dsimp only [Computation, FixpointComputation.operation]
        refine storeFreeAgree_bind s₁ s₂ _ _ _ _
          (ihL ⟨children, .floor⟩ 0 cache s₁ s₂ hnc) ?_
        intro a cache1
        simp [storeFreeAgree]
      | parametrized_equivalence =>
        simp [Computation, FixpointComputation.operation, storeFreeAgree]
      | parametrized_reference =>
        cases hch : children[0]? with
        | none => simp [Computation, FixpointComputation.operation,
              FixpointComputation.children, hch,
            storeFreeAgree]
        | some ch =>
          have hc' : noCellRefChild ch = true :=
            noCellRefChildren_get children
              (by simpa [noCellRefComp] using hnc) 0 ch hch
          cases ch with
          | param p =>
            simp [Computation, FixpointComputation.operation,
              FixpointComputation.children, hch,
              storeFreeAgree]
          | comp c2 =>
            simp [Computation, FixpointComputation.operation,
              FixpointComputation.children, hch,
              storeFreeAgree]
          | ref r =>
            cases r with
            | cell p => simp [noCellRefChild] at hc'
            | val t =>
              simp [Computation, FixpointComputation.operation,
              FixpointComputation.children, hch,
                storeFreeAgree]
      | next_layer_equivalence =>
        cases hch : children[0]? with
        | none => simp [Computation, FixpointComputation.operation,
              FixpointComputation.children, hch,
            storeFreeAgree]
        | some ch =>
          have hc' : noCellRefChild ch = true :=
            noCellRefChildren_get children
              (by simpa [noCellRefComp] using hnc) 0 ch hch
          cases ch with
          | param p =>
            simp [Computation, FixpointComputation.operation,
              FixpointComputation.children, hch,
              storeFreeAgree]
          | comp c2 =>
            simp [Computation, FixpointComputation.operation,
              FixpointComputation.children, hch,
              storeFreeAgree]
          | ref r =>
            cases r with
            | cell p => simp [noCellRefChild] at hc'
            | val t =>
              simp [Computation, FixpointComputation.operation,
              FixpointComputation.children, hch,
                storeFreeAgree]
    · intro c i cache s₁ s₂ hnc
      obtain ⟨children, op⟩ := c
      cases hch : children[i]? with
      | none =>
        simp [LocalParameterComputation, FixpointComputation.children, hch,
          storeFreeAgree]
      | some ch =>
        have hc' : noCellRefChild ch = true :=
          noCellRefChildren_get children
            (by simpa [noCellRefComp] using hnc) i ch hch
        cases ch with
        | ref r =>
          cases r with
          | cell p => simp [noCellRefChild] at hc'
          | val t =>
            simp [LocalParameterComputation, FixpointComputation.children,
              hch, FixpointReference.ToT, storeFreeAgree]
        | comp c2 =>
          have hagree := ihC c2 cache s₁ s₂
            (by simpa [noCellRefChild] using hc')
          simpa [LocalParameterComputation, FixpointComputation.children,
            hch] using hagree
        | param p =>
          cases hp : paramEvaluate f p cache with
          | error e =>
            simp [LocalParameterComputation, FixpointComputation.children,
              hch, hp, storeFreeAgree]
          | ok v =>
            simp [LocalParameterComputation, FixpointComputation.children,
              hch, hp, storeFreeAgree]

/-- Claim C9: determinism and purity of evaluation of trees without cell
references: two independent top-level evaluations (fresh cache each), run
against arbitrary heaps (in particular against whatever heap each
independent call happens to see), produce the same value or error. -/
theorem eval_deterministic_without_cellrefs
    (e : FixpointComputation) (he : noCellRefComp e = true)
    (fuel : Nat) (s₁ s₂ : CellStore) :
    resValue (evalTop fuel e s₁) = resValue (evalTop fuel e s₂) := by
  have h := (eval_store_indep fuel).1 e ⟨[], none⟩ s₁ s₂ he
  unfold evalTop resValue
  cases h1 : Computation fuel e ⟨s₁, ⟨[], none⟩⟩ with
  | error e₁ =>
    cases h2 : Computation fuel e ⟨s₂, ⟨[], none⟩⟩ with
    | error e₂ =>
      rw [h1, h2] at h
      simp only [storeFreeAgree] at h
      simp [h, Except.map]
    | ok p =>
      rw [h1, h2] at h
      simp [storeFreeAgree] at h
  | ok p₁ =>
    cases h2 : Computation fuel e ⟨s₂, ⟨[], none⟩⟩ with
    | error e₂ =>
      rw [h1, h2] at h
      simp [storeFreeAgree] at h
    | ok p₂ =>
      obtain ⟨v₁, t₁⟩ := p₁
      obtain ⟨v₂, t₂⟩ := p₂
      rw [h1, h2] at h
      simp only [storeFreeAgree] at h
      simp [Except.map, h.1]

/-- The witness expression `6 / 3`, free of cell references. -/
def divNodeW : FixpointComputation :=
  .mk [.ref (.val 6), .ref (.val 3)] .division

/-- Witness for C9: evaluating `6 / 3` from the empty heap and from a heap
containing an unrelated cell gives the same value, namely 2. -/
theorem eval_deterministic_without_cellrefs_witness :
    resValue (evalTop 5 divNodeW []) =
      resValue (evalTop 5 divNodeW [(0, ⟨5, []⟩)]) ∧
    resValue (evalTop 5 divNodeW []) = .ok 2 := by
  constructor
  · exact eval_deterministic_without_cellrefs divNodeW
      (by simp [noCellRefComp, noCellRefChildren, noCellRefChild, divNodeW])
      5 [] [(0, ⟨5, []⟩)]
  · norm_num [resValue, evalTop, Computation, LocalParameterComputation,
      FixpointReference.ToT, FixpointComputation.operation,
      FixpointComputation.children, divNodeW, Except.map]

end DFP
